import Mathlib

/-
Verification development for the mrsim EPG simulation library.

The definitions below are shallow embeddings of the Python sources:
  - src/mrsim/epg/_states_matrix.py
  - src/mrsim/epg/_longitudinal_relaxation.py
  - src/mrsim/epg/_transverse_relaxation.py
  - src/mrsim/epg/_rf_pulse.py
  - src/mrsim/models/mrf.py           (MRFModel._engine)
  - src/torchsim/models/mprage.py     (MPRAGEModel._engine)
  - src/mrsim/base/base.py            (AbstractModel.forward)
  - src/mrsim/base/decorators/_jacfwd.py
  - src/mrsim/_epg/model/mprage.py    (MPRAGE.sequence phase accumulation)
  - src/mrsim/_epg/model/base.py      (BaseSimulator._initialize_fieldmap)

Tensors over the EPG index grid (coherence order s, spatial location l,
pool p) are embedded as functions Fin S -> Fin L -> Fin P -> Complex.
Operators that the sources apply in place are embedded as pure state
transformers; elementwise torch arithmetic becomes pointwise arithmetic.
Floating point values are embedded as real numbers, except where a claim
is precisely about IEEE Inf/NaN propagation, where a dedicated value
domain with signed infinities and NaN is used.
-/

/-- EPG state buffer, mirroring the SimpleNamespace produced by
`states_matrix`: transverse states `Fplus`, `Fminus` of shape
(nstates, nlocs, ntrans_pools) and longitudinal states `Z` of shape
(nstates, nlocs, nlong_pools). -/
structure EPGStates (S L Pt Pl : ℕ) where
  Fplus : Fin S → Fin L → Fin Pt → ℂ
  Fminus : Fin S → Fin L → Fin Pt → ℂ
  Z : Fin S → Fin L → Fin Pl → ℂ

/-- Embedding of `states_matrix` (epg/_states_matrix.py): `Fplus`, `Fminus`
and `Z` are allocated as zeros and then row `Z[0]` is set to one.  The
`dtype` and `device` arguments only select the storage format in the
source and do not influence the stored values, so they are carried as
opaque parameters that the definition ignores. -/
def states_matrix {A B : Type} (dtype : A) (device : B)
    (nstates nlocs ntrans_pools nlong_pools : ℕ) :
    EPGStates nstates nlocs ntrans_pools nlong_pools where
  Fplus := fun _ _ _ => 0
  Fminus := fun _ _ _ => 0
  Z := fun s _ _ => if s.val = 0 then 1 else 0

/-- Embedding of `longitudinal_relaxation_op` (epg/_longitudinal_relaxation.py):
`E1 = exp(-R1 * time)` and `rE1 = 1 - E1`. -/
noncomputable def longitudinal_relaxation_op (R1 time : ℝ) : ℝ × ℝ :=
  (Real.exp (-R1 * time), 1 - Real.exp (-R1 * time))

/-- Embedding of `longitudinal_relaxation` (epg/_longitudinal_relaxation.py):
`Z` is first multiplied by `E1` (decay), then `rE1` is added to row
`Z[0]` (regrowth).  `Fplus` and `Fminus` are untouched. -/
def longitudinal_relaxation {S L Pt Pl : ℕ} (states : EPGStates S L Pt Pl)
    (E1 rE1 : ℂ) : EPGStates S L Pt Pl :=
  let Zdec : Fin S → Fin L → Fin Pl → ℂ := fun s l p => states.Z s l p * E1
  { states with
    Z := fun s l p => if s.val = 0 then Zdec s l p + rE1 else Zdec s l p }

/-- Embedding of `transverse_relaxation_op` (epg/_transverse_relaxation.py):
`E2 = exp(-R2 * time)`. -/
noncomputable def transverse_relaxation_op (R2 time : ℝ) : ℝ :=
  Real.exp (-R2 * time)

/-- Embedding of `transverse_relaxation` (epg/_transverse_relaxation.py):
`Fplus` and `Fminus` are both multiplied by `E2`; `Z` is untouched. -/
def transverse_relaxation {S L Pt Pl : ℕ} (states : EPGStates S L Pt Pl)
    (E2 : ℂ) : EPGStates S L Pt Pl :=
  { states with
    Fplus := fun s l p => states.Fplus s l p * E2
    Fminus := fun s l p => states.Fminus s l p * E2 }

/-- RF rotation matrix elements, one 3x3 matrix per spatial location,
mirroring the nested list of `(nlocs, 1)`-shaped tensors built by
`rf_pulse_op`. -/
structure RFMatrix (L : ℕ) where
  T00 : Fin L → ℂ
  T01 : Fin L → ℂ
  T02 : Fin L → ℂ
  T10 : Fin L → ℂ
  T11 : Fin L → ℂ
  T12 : Fin L → ℂ
  T20 : Fin L → ℂ
  T21 : Fin L → ℂ
  T22 : Fin L → ℂ

/-- Embedding of `rf_pulse_op` (epg/_rf_pulse.py).  The effective flip
angle is `slice_prof * (B1 * fa)` by broadcasting; the `slice_prof` and
`B1` factors are per-location tensors, embedded as functions on `Fin L`
(a scalar argument of the source is a constant function here).  The nine
matrix entries are exactly those of the source, with `T10 = conj T01`
and `T11 = T00`. -/
noncomputable def rf_pulse_op {L : ℕ} (fa : ℝ) (slice_prof B1 : Fin L → ℝ) :
    RFMatrix L :=
  let fa1 : Fin L → ℝ := fun l => B1 l * fa
  let fa2 : Fin L → ℝ := fun l => slice_prof l * fa1 l
  { T00 := fun l => ((Real.cos (fa2 l / 2) : ℂ)) ^ 2
    T01 := fun l => ((Real.sin (fa2 l / 2) : ℂ)) ^ 2
    T02 := fun l => ((Real.sin (fa2 l) : ℂ))
    T10 := fun l => (starRingEnd ℂ) (((Real.sin (fa2 l / 2) : ℂ)) ^ 2)
    T11 := fun l => ((Real.cos (fa2 l / 2) : ℂ)) ^ 2
    T12 := fun l => ((Real.sin (fa2 l) : ℂ))
    T20 := fun l => -(1 / 2) * Complex.I * ((Real.sin (fa2 l) : ℂ))
    T21 := fun l => (1 / 2) * Complex.I * ((Real.sin (fa2 l) : ℂ))
    T22 := fun l => ((Real.cos (fa2 l) : ℂ)) }

/-- Embedding of `rf_pulse` (epg/_rf_pulse.py): each output component is
the linear combination of the three input components with the matrix
entries of the corresponding row, all rows computed from the input
state. -/
def rf_pulse {S L P : ℕ} (states : EPGStates S L P P) (RF : RFMatrix L) :
    EPGStates S L P P where
  Fplus := fun s l p =>
    RF.T00 l * states.Fplus s l p + RF.T01 l * states.Fminus s l p +
      RF.T02 l * states.Z s l p
  Fminus := fun s l p =>
    RF.T10 l * states.Fplus s l p + RF.T11 l * states.Fminus s l p +
      RF.T12 l * states.Z s l p
  Z := fun s l p =>
    RF.T20 l * states.Fplus s l p + RF.T21 l * states.Fminus s l p +
      RF.T22 l * states.Z s l p

/-- Modelled from the spec: the spoiling operator (the file
`epg/_spoil.py` referenced by `epg/__init__.py` is not among the
sources).  Spoiling sets all transverse coherences `Fplus`, `Fminus` to
zero and preserves `Z`. -/
def spoil {S L Pt Pl : ℕ} (states : EPGStates S L Pt Pl) :
    EPGStates S L Pt Pl :=
  { states with
    Fplus := fun _ _ _ => 0
    Fminus := fun _ _ _ => 0 }

/-- Modelled from the spec: the adiabatic inversion operator (its module
is not among the sources; the call sites pass the state and an
inversion-efficiency factor).  It scales `Z` by minus the efficiency and
leaves the transverse components alone. -/
def adiabatic_inversion {S L Pt Pl : ℕ} (states : EPGStates S L Pt Pl)
    (inv_efficiency : ℝ) : EPGStates S L Pt Pl :=
  { states with
    Z := fun s l p => -(inv_efficiency : ℂ) * states.Z s l p }

/-- Modelled from the spec: the observation operator `get_signal` (the
file `epg/_adc_op.py` referenced by `epg/__init__.py` is not among the
sources).  Observation reads the zero-order transverse state `Fplus[0]`,
summed across pools (unit population weights in the single-pool engines
that call it) and aggregated over spatial locations; it does not mutate
the state.  The zero-order row is selected by filtering on the coherence
order so that the definition is total in the state dimensions. -/
noncomputable def get_signal {S L Pt Pl : ℕ} (states : EPGStates S L Pt Pl) : ℂ :=
  ∑ s ∈ Finset.filter (fun s : Fin S => s.val = 0) Finset.univ,
    ∑ l, ∑ p, states.Fplus s l p

/-- Modelled from the spec: the gradient shift operator (the file
`epg/_shift.py` referenced by `epg/__init__.py` is not among the
sources).  Transverse orders shift up by one for `Fplus` with the
boundary `Fplus[0] <- conj(Fminus[0])`, and down by one for `Fminus`
with zero fill at the top of the truncation window; orders shifted
beyond the window are discarded; `Z` is untouched. -/
noncomputable def shift {S L Pt Pl : ℕ} (states : EPGStates S L Pt Pl) :
    EPGStates S L Pt Pl :=
  { states with
    Fplus := fun s l p =>
      if s.val = 0 then (starRingEnd ℂ) (states.Fminus s l p)
      else states.Fplus ⟨s.val - 1, Nat.lt_of_le_of_lt (Nat.sub_le _ _) s.isLt⟩ l p
    Fminus := fun s l p =>
      if h : s.val + 1 < S then states.Fminus ⟨s.val + 1, h⟩ l p else 0 }

/-- The RF operator exactly as the MRF engine builds it: the source line
`epg.rf_pulse_op(B1, alpha[p], slice_prof)` binds the positional
parameters of `rf_pulse_op` as `fa := B1`, `slice_prof := alpha[p]` and
`B1 := slice_prof`, so the scalar `alpha[p]` becomes a constant
per-location factor. -/
noncomputable def mrf_rf_op {L : ℕ} (B1 : ℝ) (alphap : ℝ)
    (slice_prof : Fin L → ℝ) : RFMatrix L :=
  rf_pulse_op B1 (fun _ => alphap) slice_prof

/-- The preparation block of `MRFModel._engine` (models/mrf.py): apply
the adiabatic inversion, relax longitudinally over the inversion time,
then spoil. -/
noncomputable def mrf_prep {S L : ℕ} (inv_efficiency : ℝ) (E1inv rE1inv : ℂ)
    (states : EPGStates S L 1 1) : EPGStates S L 1 1 :=
  spoil (longitudinal_relaxation (adiabatic_inversion states inv_efficiency)
    E1inv rE1inv)

/-- The evolution tail of one MRF excitation (models/mrf.py, scan loop):
longitudinal relaxation, transverse relaxation, then the gradient
shift. -/
noncomputable def mrf_shot_evolve {S L : ℕ} (E1 rE1 E2 : ℂ) (states : EPGStates S L 1 1) :
    EPGStates S L 1 1 :=
  shift (transverse_relaxation (longitudinal_relaxation states E1 rE1) E2)

/-- The scan loop of `MRFModel._engine` (models/mrf.py): for each pulse
index, build the RF operator from `alpha[p]`, apply it, record the
signal, then evolve.  Returns the state after `n` iterations together
with the list of recorded samples, in pulse order. -/
noncomputable def mrf_scan_loop {S L : ℕ} (B1 : ℝ) (alpha : List ℝ)
    (slice_prof : Fin L → ℝ) (E1 rE1 E2 : ℂ) (states : EPGStates S L 1 1) :
    ℕ → EPGStates S L 1 1 × List ℂ
  | 0 => (states, [])
  | p + 1 =>
    let prev := mrf_scan_loop B1 alpha slice_prof E1 rE1 E2 states p
    let RF := mrf_rf_op B1 (alpha.getD p 0) slice_prof
    let st1 := rf_pulse prev.1 RF
    (mrf_shot_evolve E1 rE1 E2 st1, prev.2 ++ [get_signal st1])

/-- One repetition of `MRFModel._engine`: the preparation block followed
by the scan loop over all `len(alpha)` pulses.  The signal list is reset
at the start of each repetition in the source, so a repetition returns
only its own samples. -/
noncomputable def mrf_rep {S L : ℕ} (B1 inv_efficiency : ℝ) (alpha : List ℝ)
    (slice_prof : Fin L → ℝ) (E1inv rE1inv E1 rE1 E2 : ℂ)
    (states : EPGStates S L 1 1) : EPGStates S L 1 1 × List ℂ :=
  mrf_scan_loop B1 alpha slice_prof E1 rE1 E2
    (mrf_prep inv_efficiency E1inv rE1inv states) alpha.length

/-- The repetition loop of `MRFModel._engine`: the state carries over
from one repetition to the next, the signal list does not. -/
noncomputable def mrf_reps_loop {S L : ℕ} (B1 inv_efficiency : ℝ)
    (alpha : List ℝ) (slice_prof : Fin L → ℝ) (E1inv rE1inv E1 rE1 E2 : ℂ)
    (states : EPGStates S L 1 1) : ℕ → EPGStates S L 1 1 × List ℂ
  | 0 => (states, [])
  | r + 1 =>
    let prev := mrf_reps_loop B1 inv_efficiency alpha slice_prof E1inv rE1inv
      E1 rE1 E2 states r
    mrf_rep B1 inv_efficiency alpha slice_prof E1inv rE1inv E1 rE1 E2 prev.1

/-- Embedding of `MRFModel._engine` (models/mrf.py).  `R1 = 1/T1`,
`R2 = 1/T2`; the state buffer is created at equilibrium with
`nlocs = len(slice_prof)`; the preparation relaxation uses `TI`, the
loop relaxations use `TR`; the signal of the last repetition is
returned.  `M0` is accepted and, as in the source, never used. -/
noncomputable def mrf_engine {L : ℕ} (T1 T2 : ℝ) (alpha : List ℝ)
    (TR TI M0 B1 inv_efficiency : ℝ) (slice_prof : Fin L → ℝ)
    (nstates nreps : ℕ) : List ℂ :=
  let R1 := 1 / T1
  let R2 := 1 / T2
  let states := states_matrix () () nstates L 1 1
  let Einv := longitudinal_relaxation_op R1 TI
  let Eseq := longitudinal_relaxation_op R1 TR
  let E2 := transverse_relaxation_op R2 TR
  (mrf_reps_loop B1 inv_efficiency alpha slice_prof (Einv.1 : ℂ) (Einv.2 : ℂ)
    (Eseq.1 : ℂ) (Eseq.2 : ℂ) (E2 : ℂ) states nreps).2

/-- The scan loop of `MPRAGEModel._engine` (torchsim/models/mprage.py):
for each readout, apply the fixed RF pulse, relax longitudinally over
`TRspgr`, record `M0 * 1j * get_signal(states)`, then spoil. -/
noncomputable def mprage_scan_loop (RF : RFMatrix 1) (E1 rE1 : ℂ) (M0 : ℝ)
    (states : EPGStates 1 1 1 1) : ℕ → EPGStates 1 1 1 1 × List ℂ
  | 0 => (states, [])
  | p + 1 =>
    let prev := mprage_scan_loop RF E1 rE1 M0 states p
    let st1 := rf_pulse prev.1 RF
    let st2 := longitudinal_relaxation st1 E1 rE1
    (spoil st2, prev.2 ++ [(M0 : ℂ) * Complex.I * get_signal st2])

/-- One inversion block of `MPRAGEModel._engine`: inversion preparation,
`2 * nshots_bef` readouts, then (when `TRmprage` is given) a further
longitudinal relaxation; the source drops the return value of that last
call but the operator mutates the state namespace in place, so it takes
effect.  Signals accumulate across blocks. -/
noncomputable def mprage_inversion_block (inv_efficiency : ℝ)
    (E1inv rE1inv E1 rE1 : ℂ) (Empr : Option (ℂ × ℂ)) (M0 : ℝ)
    (RF : RFMatrix 1) (nshots2 : ℕ)
    (acc : EPGStates 1 1 1 1 × List ℂ) : EPGStates 1 1 1 1 × List ℂ :=
  let prepped := spoil (longitudinal_relaxation
    (adiabatic_inversion acc.1 inv_efficiency) E1inv rE1inv)
  let inner := mprage_scan_loop RF E1 rE1 M0 prepped nshots2
  let final := match Empr with
    | some e => longitudinal_relaxation inner.1 e.1 e.2
    | none => inner.1
  (final, acc.2 ++ inner.2)

/-- The inversion loop of `MPRAGEModel._engine`. -/
noncomputable def mprage_inv_loop (inv_efficiency : ℝ)
    (E1inv rE1inv E1 rE1 : ℂ) (Empr : Option (ℂ × ℂ)) (M0 : ℝ)
    (RF : RFMatrix 1) (nshots2 : ℕ) (states : EPGStates 1 1 1 1) :
    ℕ → EPGStates 1 1 1 1 × List ℂ
  | 0 => (states, [])
  | i + 1 =>
    mprage_inversion_block inv_efficiency E1inv rE1inv E1 rE1 Empr M0 RF
      nshots2 (mprage_inv_loop inv_efficiency E1inv rE1inv E1 rE1 Empr M0 RF
        nshots2 states i)

/-- Embedding of `MPRAGEModel._engine` (torchsim/models/mprage.py).
`R1 = 1e3 / T1`; the state buffer has a single coherence order; the
fixed excitation operator is `rf_pulse_op(flip)` with default unit
slice profile and transmit field; the preparation relaxation runs over
`TI - nshots_bef * TRspgr` and the readout relaxation over `TRspgr`. -/
noncomputable def mprage_engine (T1 TI flip TRspgr : ℝ) (TRmprage : Option ℝ)
    (nshots_bef : ℕ) (M0 inv_efficiency : ℝ) (num_inversions : ℕ) :
    List ℂ :=
  let R1 := 1000 / T1
  let time_bef := (nshots_bef : ℝ) * TRspgr
  let states := states_matrix () () 1 1 1 1
  let RF := rf_pulse_op flip (fun _ : Fin 1 => 1) (fun _ => 1)
  let Einv := longitudinal_relaxation_op R1 (TI - time_bef)
  let Eseq := longitudinal_relaxation_op R1 TRspgr
  let Empr := TRmprage.map fun t =>
    (((longitudinal_relaxation_op R1 t).1 : ℂ),
      ((longitudinal_relaxation_op R1 t).2 : ℂ))
  (mprage_inv_loop inv_efficiency (Einv.1 : ℂ) (Einv.2 : ℂ) (Eseq.1 : ℂ)
    (Eseq.2 : ℂ) Empr M0 RF (nshots_bef * 2) states num_inversions).2

/-- Embedding of `torch.vmap(engine, chunk_size)` as used by
`AbstractModel.forward` (base/base.py): the engine is mapped over the
leading batch axis of its inputs and, with the default `out_dims = 0`,
the per-lane outputs are stacked along a new leading axis, so lane `b`
of the output is the engine applied to lane `b` of the input.  The
`chunk_size` option only bounds peak memory and does not change the
result, so it is not part of the embedding. -/
def torchvmap {α β : Type} (engine : α → β) (inputs : List α) : List β :=
  inputs.map engine

/-- Embedding of `AbstractModel.forward` (base/base.py): the callable it
returns broadcasts the batched parameters to a common leading shape and
evaluates the vmapped engine on them.  A batch is embedded as a list of
per-lane parameter tuples (already broadcast), and a per-lane engine
output as the list of its `num_pulses` samples. -/
def forwardModel {α : Type} (engine : α → List ℂ) (inputs : List α) :
    List (List ℂ) :=
  torchvmap engine inputs

/-- Python float modulo with the positive divisor 360, as in the
expression `x % 360.0` of `MPRAGE.sequence` (_epg/model/mprage.py). -/
def mod360 (x : ℚ) : ℚ := x - 360 * (⌊x / 360⌋ : ℤ)

/-- Embedding of one iteration of the phase update in `MPRAGE.sequence`
(_epg/model/mprage.py, loop body):
`dphi = (phi + spoil_inc) % 360.0` followed by
`phi = (phi + dphi) % 360.0`, on the pair `(dphi, phi)`. -/
def mprage_phase_step (spoil_inc : ℚ) (st : ℚ × ℚ) : ℚ × ℚ :=
  let dphi := mod360 (st.2 + spoil_inc)
  let phi := mod360 (st.2 + dphi)
  (dphi, phi)

/-- The phase state of `MPRAGE.sequence` after `n` loop iterations,
starting from `phi = 0`, `dphi = 0`; the RF phase applied at pulse `n`
(1-indexed) is the second component after `n` iterations. -/
def mprage_phase (spoil_inc : ℚ) : ℕ → ℚ × ℚ
  | 0 => (0, 0)
  | n + 1 => mprage_phase_step spoil_inc (mprage_phase spoil_inc n)

/-- Modelled from the spec: the running modulo-360 phase increment that
the claim states, `phi_n = (phi_(n-1) + n * dphi) mod 360` with
`phi_0 = 0`.  This definition follows the words of the claim and is
compared against `mprage_phase`, which follows the source. -/
def spec_phase (spoil_inc : ℚ) : ℕ → ℚ
  | 0 => 0
  | n + 1 => mod360 (spec_phase spoil_inc n + (n + 1 : ℕ) * spoil_inc)

/-- Embedding of `split_real_imag` (base/decorators/_jacfwd.py) on a
complex tensor: the real and imaginary parts are stacked along a new
leading axis of size two.  A complex tensor is embedded as a list of
(real, imaginary) pairs of rationals and the stacked result as the pair
of its two slices. -/
def split_real_imag (t : List (ℚ × ℚ)) : List ℚ × List ℚ :=
  (t.map Prod.fst, t.map Prod.snd)

/-- Embedding of `combine_real_imag` (base/decorators/_jacfwd.py):
`output = torch.complex(split[0], split[1])`; if `isreal(output).all()`
the real part is returned (a real-valued tensor, the left summand),
otherwise the complex tensor itself (the right summand). -/
def combine_real_imag (s : List ℚ × List ℚ) : List ℚ ⊕ List (ℚ × ℚ) :=
  let output := List.zipWith Prod.mk s.1 s.2
  if ∀ z ∈ output, z.2 = 0 then Sum.inl (output.map Prod.fst)
  else Sum.inr output

/-- Embedding of the `jacfwd` decorator (base/decorators/_jacfwd.py)
with its default `recombine_output = True`, the form `AbstractModel.jacobian`
uses: the wrapped function first splits the real and imaginary parts of
the decorated function, forward-mode differentiation is run on that
split function, and the resulting Jacobian slices are recombined.  The
differentiation engine `torch.func.jacfwd` belongs to the external
framework, so it enters the embedding as the parameter `jacEngine`
mapping a split-valued function and an evaluation point to the split
Jacobian. -/
def jacfwd {α : Type}
    (jacEngine : (α → List ℚ × List ℚ) → α → List ℚ × List ℚ)
    (fn : α → List (ℚ × ℚ)) (x : α) : List ℚ ⊕ List (ℚ × ℚ) :=
  let wrapped_fn : α → List ℚ × List ℚ := fun y => split_real_imag (fn y)
  let jacobian := jacEngine wrapped_fn x
  combine_real_imag jacobian

/-- IEEE-754-style value domain for the claims about Inf/NaN policy:
a finite value (embedded as a rational), the two signed infinities, and
NaN. -/
inductive FVal where
  | fin : ℚ → FVal
  | pinf : FVal
  | ninf : FVal
  | nan : FVal
deriving DecidableEq

/-- Floating-point reciprocal `1 / x`: the reciprocal of zero is
positive infinity (the dividend 1 is positive), reciprocals of the
infinities are zero, and NaN propagates. -/
def frecip : FVal → FVal
  | .fin q => if q = 0 then .pinf else .fin q⁻¹
  | .pinf => .fin 0
  | .ninf => .fin 0
  | .nan => .nan

/-- Floating-point subtraction on the value domain: NaN propagates,
infinity minus infinity of the same sign is NaN, otherwise infinities
absorb finite values. -/
def fsub : FVal → FVal → FVal
  | .nan, _ => .nan
  | _, .nan => .nan
  | .fin a, .fin b => .fin (a - b)
  | .fin _, .pinf => .ninf
  | .fin _, .ninf => .pinf
  | .pinf, .pinf => .nan
  | .pinf, _ => .pinf
  | .ninf, .ninf => .nan
  | .ninf, _ => .ninf

/-- Floating-point addition on the value domain: NaN propagates,
infinities of opposite sign give NaN, otherwise infinities absorb
finite values. -/
def fadd : FVal → FVal → FVal
  | .nan, _ => .nan
  | _, .nan => .nan
  | .fin a, .fin b => .fin (a + b)
  | .fin _, .pinf => .pinf
  | .fin _, .ninf => .ninf
  | .pinf, .ninf => .nan
  | .pinf, _ => .pinf
  | .ninf, .pinf => .nan
  | .ninf, _ => .ninf

/-- Embedding of `torch.nan_to_num(x, nan, posinf, neginf)`. -/
def nan_to_num (x : FVal) (nanv posv negv : ℚ) : FVal :=
  match x with
  | .fin q => .fin q
  | .pinf => .fin posv
  | .ninf => .fin negv
  | .nan => .fin nanv

/-- `torch.finfo(torch.float32).eps`, the constant `eps` of
_epg/model/base.py. -/
def eps32 : ℚ := 1 / 8388608

/-- Embedding of the branch of `BaseSimulator._initialize_fieldmap`
(_epg/model/base.py) taken when `T2star` is provided and a multi-pool
model is configured: `R2prime = 1 / T2star - 1 / T2[..., -1]`,
`T2prime = nan_to_num(1 / R2prime, posinf = 0, neginf = 0) + eps`, and
the real part of the downstream field term is
`df.real = R2prime` (the sanitized `T2prime` is computed but not used
by `df`).  Returns `(df real part, sanitized T2prime)`. -/
def fieldmap_df_bm (T2star T2last : FVal) : FVal × FVal :=
  let R2prime := fsub (frecip T2star) (frecip T2last)
  let T2prime := fadd (nan_to_num (frecip R2prime) 0 0 0) (.fin eps32)
  (R2prime, T2prime)

/-- Embedding of the branch of `BaseSimulator._initialize_fieldmap`
(_epg/model/base.py) taken when `T2star` is provided and no multi-pool
model is configured: `R2star = nan_to_num(1 / T2star, posinf = 0,
neginf = 0) + eps` is the real part of the field term `df`. -/
def fieldmap_df_single (T2star : FVal) : FVal :=
  fadd (nan_to_num (frecip T2star) 0 0 0) (.fin eps32)

/-- Claim C3: for every dtype, device, nstates of at least one, nlocs
and pool counts, the freshly created EPG state has `Z[0, l, p] = 1` for
all locations and pools, and every other entry of `Z`, `Fplus` and
`Fminus` equal to zero. -/
theorem C3_states_matrix_equilibrium {A B : Type} (dtype : A) (device : B)
    (nstates nlocs ntrans_pools nlong_pools : ℕ) (h : 0 < nstates) :
    (∀ l p, (states_matrix dtype device nstates nlocs ntrans_pools
      nlong_pools).Z ⟨0, h⟩ l p = 1) ∧
    (∀ s l p, s.val ≠ 0 → (states_matrix dtype device nstates nlocs
      ntrans_pools nlong_pools).Z s l p = 0) ∧
    (∀ s l p, (states_matrix dtype device nstates nlocs ntrans_pools
      nlong_pools).Fplus s l p = 0) ∧
    (∀ s l p, (states_matrix dtype device nstates nlocs ntrans_pools
      nlong_pools).Fminus s l p = 0) := by
  refine ⟨fun l p => ?_, fun s l p hs => ?_, fun s l p => rfl,
    fun s l p => rfl⟩
  · simp [states_matrix]
  · simp [states_matrix, hs]

/-- Witness for C3 at a concrete size. -/
theorem C3_witness :
    0 < 2 ∧
    ((∀ l p, (states_matrix (0 : ℕ) (0 : ℕ) 2 3 4 5).Z
      ⟨0, Nat.succ_pos 1⟩ l p = 1) ∧
    (∀ s l p, s.val ≠ 0 →
      (states_matrix (0 : ℕ) (0 : ℕ) 2 3 4 5).Z s l p = 0) ∧
    (∀ s l p, (states_matrix (0 : ℕ) (0 : ℕ) 2 3 4 5).Fplus s l p = 0) ∧
    (∀ s l p, (states_matrix (0 : ℕ) (0 : ℕ) 2 3 4 5).Fminus s l p = 0)) :=
  ⟨Nat.succ_pos 1, C3_states_matrix_equilibrium 0 0 2 3 4 5 (Nat.succ_pos 1)⟩

/-- Claim C4: the longitudinal relaxation operator is exactly
`E1 = exp(-R1 * t)`, `rE1 = 1 - E1`, and applying
`longitudinal_relaxation` with these operators yields
`Z[0] * E1 + rE1` at coherence order zero and `Z[s] * E1` at every
higher order: the recovery feeds only the zero-order state. -/
theorem C4_longitudinal_relaxation_formulas :
    (∀ R1 t : ℝ, longitudinal_relaxation_op R1 t =
      (Real.exp (-R1 * t), 1 - Real.exp (-R1 * t))) ∧
    (∀ (S L Pt Pl : ℕ) (st : EPGStates S L Pt Pl) (R1 t : ℝ) (h : 0 < S)
      (l : Fin L) (p : Fin Pl),
      ((longitudinal_relaxation st ((longitudinal_relaxation_op R1 t).1 : ℂ)
        ((longitudinal_relaxation_op R1 t).2 : ℂ)).Z ⟨0, h⟩ l p =
          st.Z ⟨0, h⟩ l p * (Real.exp (-R1 * t) : ℂ) +
            (1 - (Real.exp (-R1 * t) : ℂ))) ∧
      (∀ s : Fin S, s.val ≠ 0 →
        (longitudinal_relaxation st ((longitudinal_relaxation_op R1 t).1 : ℂ)
          ((longitudinal_relaxation_op R1 t).2 : ℂ)).Z s l p =
            st.Z s l p * (Real.exp (-R1 * t) : ℂ))) := by
  refine ⟨fun R1 t => rfl, fun S L Pt Pl st R1 t h l p => ⟨?_, fun s hs => ?_⟩⟩
  · simp [longitudinal_relaxation, longitudinal_relaxation_op]
  · simp [longitudinal_relaxation, longitudinal_relaxation_op, hs]

/-- Witness for C4 at concrete inputs. -/
theorem C4_witness :
    (longitudinal_relaxation_op 1 0 = (Real.exp (-1 * 0), 1 - Real.exp (-1 * 0))) ∧
    0 < 2 ∧ ((1 : Fin 2).val ≠ 0) ∧
    ((longitudinal_relaxation (states_matrix (0 : ℕ) (0 : ℕ) 2 1 1 1)
      ((longitudinal_relaxation_op 1 0).1 : ℂ)
      ((longitudinal_relaxation_op 1 0).2 : ℂ)).Z ⟨0, Nat.succ_pos 1⟩ 0 0 =
        (states_matrix (0 : ℕ) (0 : ℕ) 2 1 1 1).Z ⟨0, Nat.succ_pos 1⟩ 0 0 *
          (Real.exp (-1 * 0) : ℂ) + (1 - (Real.exp (-1 * 0) : ℂ))) ∧
    ((longitudinal_relaxation (states_matrix (0 : ℕ) (0 : ℕ) 2 1 1 1)
      ((longitudinal_relaxation_op 1 0).1 : ℂ)
      ((longitudinal_relaxation_op 1 0).2 : ℂ)).Z 1 0 0 =
        (states_matrix (0 : ℕ) (0 : ℕ) 2 1 1 1).Z 1 0 0 *
          (Real.exp (-1 * 0) : ℂ)) :=
  ⟨C4_longitudinal_relaxation_formulas.1 1 0, Nat.succ_pos 1, by decide,
    (C4_longitudinal_relaxation_formulas.2 2 1 1 1
      (states_matrix (0 : ℕ) (0 : ℕ) 2 1 1 1) 1 0 (Nat.succ_pos 1) 0 0).1,
    (C4_longitudinal_relaxation_formulas.2 2 1 1 1
      (states_matrix (0 : ℕ) (0 : ℕ) 2 1 1 1) 1 0 (Nat.succ_pos 1) 0 0).2 1
      (by decide)⟩

/-- Claim C5: the RF rotation operator built with flip angle zero is the
identity on every input state, for every slice profile and transmit
field scaling. -/
theorem C5_rf_zero_identity (S L P : ℕ) (slice_prof B1 : Fin L → ℝ)
    (st : EPGStates S L P P) (s : Fin S) (l : Fin L) (p : Fin P) :
    ((rf_pulse st (rf_pulse_op 0 slice_prof B1)).Fplus s l p =
      st.Fplus s l p) ∧
    ((rf_pulse st (rf_pulse_op 0 slice_prof B1)).Fminus s l p =
      st.Fminus s l p) ∧
    ((rf_pulse st (rf_pulse_op 0 slice_prof B1)).Z s l p = st.Z s l p) := by
  refine ⟨?_, ?_, ?_⟩ <;> simp [rf_pulse, rf_pulse_op]

/-- Claim C10: `longitudinal_relaxation` writes only `Z`, leaving both
transverse arrays unchanged, and `transverse_relaxation` writes only the
transverse arrays (each multiplied by `E2`), leaving `Z` unchanged. -/
theorem C10_relaxation_frame (S L Pt Pl : ℕ) (st : EPGStates S L Pt Pl)
    (E1 rE1 E2 : ℂ) :
    ((longitudinal_relaxation st E1 rE1).Fplus = st.Fplus ∧
      (longitudinal_relaxation st E1 rE1).Fminus = st.Fminus) ∧
    ((transverse_relaxation st E2).Z = st.Z ∧
      (∀ s l p, (transverse_relaxation st E2).Fplus s l p =
        st.Fplus s l p * E2) ∧
      (∀ s l p, (transverse_relaxation st E2).Fminus s l p =
        st.Fminus s l p * E2)) :=
  ⟨⟨rfl, rfl⟩, ⟨rfl, fun _ _ _ => rfl, fun _ _ _ => rfl⟩⟩

/-- Claim C6: the RF operator with flip angle pi (phase zero, unit slice
profile and transmit field) maps the equilibrium state to one with
`Z[0] = -1` and all transverse components zero. -/
theorem C6_rf_pi_inversion {A B : Type} (dtype : A) (device : B)
    (S L P : ℕ) (h : 0 < S) :
    (∀ l p, (rf_pulse (states_matrix dtype device S L P P)
      (rf_pulse_op Real.pi (fun _ : Fin L => 1) (fun _ => 1))).Z
        ⟨0, h⟩ l p = -1) ∧
    (∀ s l p, (rf_pulse (states_matrix dtype device S L P P)
      (rf_pulse_op Real.pi (fun _ : Fin L => 1) (fun _ => 1))).Fplus
        s l p = 0) ∧
    (∀ s l p, (rf_pulse (states_matrix dtype device S L P P)
      (rf_pulse_op Real.pi (fun _ : Fin L => 1) (fun _ => 1))).Fminus
        s l p = 0) := by
  refine ⟨fun l p => ?_, fun s l p => ?_, fun s l p => ?_⟩ <;>
    simp [rf_pulse, rf_pulse_op, states_matrix]

/-- Witness for C6 at a concrete size. -/
theorem C6_witness :
    0 < 1 ∧
    ((∀ l p, (rf_pulse (states_matrix (0 : ℕ) (0 : ℕ) 1 1 1 1)
      (rf_pulse_op Real.pi (fun _ : Fin 1 => 1) (fun _ => 1))).Z
        ⟨0, Nat.one_pos⟩ l p = -1) ∧
    (∀ s l p, (rf_pulse (states_matrix (0 : ℕ) (0 : ℕ) 1 1 1 1)
      (rf_pulse_op Real.pi (fun _ : Fin 1 => 1) (fun _ => 1))).Fplus
        s l p = 0) ∧
    (∀ s l p, (rf_pulse (states_matrix (0 : ℕ) (0 : ℕ) 1 1 1 1)
      (rf_pulse_op Real.pi (fun _ : Fin 1 => 1) (fun _ => 1))).Fminus
        s l p = 0)) :=
  ⟨Nat.one_pos, C6_rf_pi_inversion 0 0 1 1 1 Nat.one_pos⟩

/-- Evaluation of the observation on a state with a single coherence
order, location and pool. -/
theorem get_signal_single (st : EPGStates 1 1 1 1) :
    get_signal st = st.Fplus 0 0 0 := by
  simp [get_signal, Finset.sum_filter]

/-- The MRF scan loop records one sample per iteration. -/
theorem mrf_scan_loop_len {S L : ℕ} (B1 : ℝ) (alpha : List ℝ)
    (slice_prof : Fin L → ℝ) (E1 rE1 E2 : ℂ) (st : EPGStates S L 1 1) :
    ∀ n, (mrf_scan_loop B1 alpha slice_prof E1 rE1 E2 st n).2.length = n := by
  intro n
  induction n with
  | zero => rfl
  | succ n ih => simp [mrf_scan_loop, ih]

/-- Sample `p` of the MRF scan loop is the observation taken right after
the RF pulse of iteration `p`. -/
theorem mrf_scan_loop_sample {S L : ℕ} (B1 : ℝ) (alpha : List ℝ)
    (slice_prof : Fin L → ℝ) (E1 rE1 E2 : ℂ) (st : EPGStates S L 1 1)
    (n p : ℕ) (hp : p < n) :
    (mrf_scan_loop B1 alpha slice_prof E1 rE1 E2 st n).2.get? p =
      some (get_signal (rf_pulse
        (mrf_scan_loop B1 alpha slice_prof E1 rE1 E2 st p).1
        (mrf_rf_op B1 (alpha.getD p 0) slice_prof))) := by
  induction n with
  | zero => exact absurd hp (Nat.not_lt_zero p)
  | succ n ih =>
    have hsplit : (mrf_scan_loop B1 alpha slice_prof E1 rE1 E2 st (n + 1)).2 =
        (mrf_scan_loop B1 alpha slice_prof E1 rE1 E2 st n).2 ++
          [get_signal (rf_pulse
            (mrf_scan_loop B1 alpha slice_prof E1 rE1 E2 st n).1
            (mrf_rf_op B1 (alpha.getD n 0) slice_prof))] := rfl
    by_cases h : p < n
    · rw [hsplit, List.get?_append (by
        rw [mrf_scan_loop_len B1 alpha slice_prof E1 rE1 E2 st n]; exact h)]
      exact ih h
    · have hpn : p = n := by omega
      subst hpn
      rw [hsplit]
      have hlen := mrf_scan_loop_len B1 alpha slice_prof E1 rE1 E2 st p
      have hc := List.get?_concat_length
        (mrf_scan_loop B1 alpha slice_prof E1 rE1 E2 st p).2
        (get_signal (rf_pulse
          (mrf_scan_loop B1 alpha slice_prof E1 rE1 E2 st p).1
          (mrf_rf_op B1 (alpha.getD p 0) slice_prof)))
      rw [hlen] at hc
      exact hc

/-- The MPRAGE scan loop records one sample per iteration. -/
theorem mprage_scan_loop_len (RF : RFMatrix 1) (E1 rE1 : ℂ) (M0 : ℝ)
    (st : EPGStates 1 1 1 1) :
    ∀ n, (mprage_scan_loop RF E1 rE1 M0 st n).2.length = n := by
  intro n
  induction n with
  | zero => rfl
  | succ n ih => simp [mprage_scan_loop, ih]

/-- Sample `p` of the MPRAGE scan loop is (up to the `M0 * 1j` factor)
the observation taken after the RF pulse and the longitudinal relaxation
of iteration `p`, before the spoiling. -/
theorem mprage_scan_loop_sample (RF : RFMatrix 1) (E1 rE1 : ℂ) (M0 : ℝ)
    (st : EPGStates 1 1 1 1) (n p : ℕ) (hp : p < n) :
    (mprage_scan_loop RF E1 rE1 M0 st n).2.get? p =
      some ((M0 : ℂ) * Complex.I * get_signal (longitudinal_relaxation
        (rf_pulse (mprage_scan_loop RF E1 rE1 M0 st p).1 RF) E1 rE1)) := by
  induction n with
  | zero => exact absurd hp (Nat.not_lt_zero p)
  | succ n ih =>
    have hsplit : (mprage_scan_loop RF E1 rE1 M0 st (n + 1)).2 =
        (mprage_scan_loop RF E1 rE1 M0 st n).2 ++
          [(M0 : ℂ) * Complex.I * get_signal (longitudinal_relaxation
            (rf_pulse (mprage_scan_loop RF E1 rE1 M0 st n).1 RF) E1 rE1)] :=
      rfl
    by_cases h : p < n
    · rw [hsplit, List.get?_append (by
        rw [mprage_scan_loop_len RF E1 rE1 M0 st n]; exact h)]
      exact ih h
    · have hpn : p = n := by omega
      subst hpn
      rw [hsplit]
      have hlen := mprage_scan_loop_len RF E1 rE1 M0 st p
      have hc := List.get?_concat_length
        (mprage_scan_loop RF E1 rE1 M0 st p).2
        ((M0 : ℂ) * Complex.I * get_signal (longitudinal_relaxation
          (rf_pulse (mprage_scan_loop RF E1 rE1 M0 st p).1 RF) E1 rE1))
      rw [hlen] at hc
      exact hc

/-- Claim C1 (amended): in the MPRAGE engine each recorded sample is the
observation taken after the RF pulse and the longitudinal relaxation of
its iteration (scaled by `M0 * 1j`), before spoiling; in the MRF engine,
however, each recorded sample is the observation taken immediately after
the RF pulse, before the relaxation steps and the shift of that
iteration. -/
theorem C1_amended_observation_order :
    (∀ (S L : ℕ) (B1 : ℝ) (alpha : List ℝ) (slice_prof : Fin L → ℝ)
      (E1 rE1 E2 : ℂ) (st : EPGStates S L 1 1) (n p : ℕ), p < n →
      (mrf_scan_loop B1 alpha slice_prof E1 rE1 E2 st n).2.get? p =
        some (get_signal (rf_pulse
          (mrf_scan_loop B1 alpha slice_prof E1 rE1 E2 st p).1
          (mrf_rf_op B1 (alpha.getD p 0) slice_prof)))) ∧
    (∀ (RF : RFMatrix 1) (E1 rE1 : ℂ) (M0 : ℝ) (st : EPGStates 1 1 1 1)
      (n p : ℕ), p < n →
      (mprage_scan_loop RF E1 rE1 M0 st n).2.get? p =
        some ((M0 : ℂ) * Complex.I * get_signal (longitudinal_relaxation
          (rf_pulse (mprage_scan_loop RF E1 rE1 M0 st p).1 RF) E1 rE1))) :=
  ⟨fun _ _ B1 alpha slice_prof E1 rE1 E2 st n p hp =>
    mrf_scan_loop_sample B1 alpha slice_prof E1 rE1 E2 st n p hp,
  fun RF E1 rE1 M0 st n p hp =>
    mprage_scan_loop_sample RF E1 rE1 M0 st n p hp⟩

/-- Witness for the amended C1 at concrete inputs. -/
theorem C1_witness :
    (0 : ℕ) < 1 ∧
    ((mrf_scan_loop 1 [0] (fun _ : Fin 1 => 1) 1 0 1
      (states_matrix () () 1 1 1 1) 1).2.get? 0 =
      some (get_signal (rf_pulse
        (mrf_scan_loop 1 [0] (fun _ : Fin 1 => 1) 1 0 1
          (states_matrix () () 1 1 1 1) 0).1
        (mrf_rf_op 1 ([0].getD 0 0) (fun _ : Fin 1 => 1))))) ∧
    ((mprage_scan_loop (rf_pulse_op 0 (fun _ : Fin 1 => 1) (fun _ => 1))
      1 0 1 (states_matrix () () 1 1 1 1) 1).2.get? 0 =
      some (((1 : ℝ) : ℂ) * Complex.I * get_signal (longitudinal_relaxation
        (rf_pulse (mprage_scan_loop
          (rf_pulse_op 0 (fun _ : Fin 1 => 1) (fun _ => 1)) 1 0 1
          (states_matrix () () 1 1 1 1) 0).1
          (rf_pulse_op 0 (fun _ : Fin 1 => 1) (fun _ => 1))) 1 0))) :=
  ⟨Nat.one_pos,
    C1_amended_observation_order.1 1 1 1 [0] (fun _ => 1) 1 0 1
      (states_matrix () () 1 1 1 1) 1 0 Nat.one_pos,
    C1_amended_observation_order.2
      (rf_pulse_op 0 (fun _ : Fin 1 => 1) (fun _ => 1)) 1 0 1
      (states_matrix () () 1 1 1 1) 1 0 Nat.one_pos⟩

/-- Claim C1 (counterexample): the claim fails on `MRFModel._engine`.
With `T1 = T2 = 1 s`, a single pulse of flip `pi/2`, `TR = 1 s`,
`TI = 0`, unit scalings, one state and one repetition, the engine
records the sample `-1`, which is the observation taken immediately
after the RF pulse; the observation taken after the RF pulse and the
relaxation steps of that iteration is `-exp(-1)`, which differs. -/
theorem C1_counterexample :
    ((mrf_engine 1 1 [Real.pi / 2] 1 0 1 1 1 (fun _ : Fin 1 => 1) 1 1).get? 0 =
      some (get_signal (rf_pulse (mrf_prep 1 1 0 (states_matrix () () 1 1 1 1))
        (mrf_rf_op 1 (Real.pi / 2) (fun _ : Fin 1 => 1))))) ∧
    (get_signal (rf_pulse (mrf_prep 1 1 0 (states_matrix () () 1 1 1 1))
        (mrf_rf_op 1 (Real.pi / 2) (fun _ : Fin 1 => 1))) = -1) ∧
    (get_signal (transverse_relaxation (longitudinal_relaxation
        (rf_pulse (mrf_prep 1 1 0 (states_matrix () () 1 1 1 1))
          (mrf_rf_op 1 (Real.pi / 2) (fun _ : Fin 1 => 1)))
        ((Real.exp (-(1 : ℝ) * 1) : ℝ) : ℂ)
        (((1 : ℝ) - Real.exp (-(1 : ℝ) * 1) : ℝ) : ℂ))
        ((Real.exp (-(1 : ℝ) * 1) : ℝ) : ℂ)) = -((Real.exp (-1) : ℝ) : ℂ)) ∧
    ((-1 : ℂ) ≠ -((Real.exp (-1) : ℝ) : ℂ)) := by
  refine ⟨?_, ?_, ?_, ?_⟩
  · simp [mrf_engine, mrf_reps_loop, mrf_rep, mrf_scan_loop,
      longitudinal_relaxation_op, transverse_relaxation_op]
  · rw [get_signal_single]
    simp [mrf_prep, spoil, adiabatic_inversion, longitudinal_relaxation,
      states_matrix, rf_pulse, mrf_rf_op, rf_pulse_op, Real.sin_pi_div_two]
  · rw [get_signal_single]
    simp [transverse_relaxation, longitudinal_relaxation, mrf_prep, spoil,
      adiabatic_inversion, states_matrix, rf_pulse, mrf_rf_op, rf_pulse_op,
      Real.sin_pi_div_two]
  · intro h
    have h2 : ((Real.exp (-1) : ℝ) : ℂ) = 1 := (neg_inj.mp h).symm
    rw [Complex.ofReal_eq_one, ← Real.exp_zero] at h2
    have h3 := Real.exp_injective h2
    norm_num at h3

/-- Claim C2 (counterexample): the claim fails on the vmapped interface.
With a two-lane batch and an engine producing three samples per lane
(as in tests/base/test_abstract_model.py), the output of the forward
model has leading length 2, the batch size, not 3, the pulse count. -/
theorem C2_counterexample :
    (forwardModel (fun _ : ℚ => [(1 : ℂ), 2, 3]) [0, 1]).length = 2 ∧
    ((fun _ : ℚ => [(1 : ℂ), 2, 3]) 0).length = 3 ∧
    (forwardModel (fun _ : ℚ => [(1 : ℂ), 2, 3]) [0, 1]).length ≠
      ((fun _ : ℚ => [(1 : ℂ), 2, 3]) 0).length :=
  ⟨rfl, rfl, by norm_num [forwardModel, torchvmap]⟩

/-- Claim C2 (amended): the returned signal has shape
`(*batch_shape, num_pulses)`: the broadcast batch axis leads (lane `b`
of the output is the engine applied to lane `b` of the input) and the
pulse axis is the trailing one, of length `num_pulses` in every lane. -/
theorem C2_amended_output_shape {α : Type} (engine : α → List ℂ)
    (inputs : List α) (num_pulses : ℕ)
    (h : ∀ x, (engine x).length = num_pulses) :
    (forwardModel engine inputs).length = inputs.length ∧
    (∀ out ∈ forwardModel engine inputs, out.length = num_pulses) ∧
    (∀ b : ℕ, (forwardModel engine inputs).get? b =
      (inputs.get? b).map engine) := by
  refine ⟨List.length_map _ _, ?_, fun b => List.get?_map engine inputs b⟩
  intro out hout
  rcases List.mem_map.mp hout with ⟨x, _, rfl⟩
  exact h x

/-- Witness for the amended C2 at concrete inputs. -/
theorem C2_witness :
    (∀ x : ℚ, ((fun _ : ℚ => [(1 : ℂ), 2]) x).length = 2) ∧
    ((forwardModel (fun _ : ℚ => [(1 : ℂ), 2]) [0, 5, 7]).length =
      ([0, 5, 7] : List ℚ).length ∧
    (∀ out ∈ forwardModel (fun _ : ℚ => [(1 : ℂ), 2]) [0, 5, 7],
      out.length = 2) ∧
    (∀ b : ℕ, (forwardModel (fun _ : ℚ => [(1 : ℂ), 2]) [0, 5, 7]).get? b =
      (([0, 5, 7] : List ℚ).get? b).map (fun _ : ℚ => [(1 : ℂ), 2]))) :=
  ⟨fun _ => rfl,
    C2_amended_output_shape (fun _ : ℚ => [(1 : ℂ), 2]) [0, 5, 7] 2
      (fun _ => rfl)⟩

/-- Claim C7 (code evaluation): with spoiling increment 10 degrees the
phase train of `MPRAGE.sequence` is 10, 30, 70 degrees at pulses 1, 2,
3, while the running increment of the claim gives 10, 30, 60: the code
reads the accumulated phase instead of the previous increment when
updating `dphi`, so the trains diverge from the third pulse on. -/
theorem C7_phase_divergence :
    (mprage_phase 10 1).2 = 10 ∧ (mprage_phase 10 2).2 = 30 ∧
    (mprage_phase 10 3).2 = 70 ∧
    spec_phase 10 1 = 10 ∧ spec_phase 10 2 = 30 ∧ spec_phase 10 3 = 60 ∧
    (mprage_phase 10 3).2 ≠ spec_phase 10 3 := by
  refine ⟨?_, ?_, ?_, ?_, ?_, ?_, ?_⟩ <;>
    norm_num [mprage_phase, mprage_phase_step, spec_phase, mod360]

/-- Recombining the two slices produced by the real/imaginary split
recovers the original complex tensor. -/
theorem zipWith_mk_fst_snd {α β : Type} (t : List (α × β)) :
    List.zipWith Prod.mk (t.map Prod.fst) (t.map Prod.snd) = t := by
  induction t with
  | nil => rfl
  | cons a t ih => simp [ih]

/-- Claim C8: the differentiation adapter evaluates the forward-mode
engine on the real/imaginary split of the wrapped function and
recombines the result; the split slices recombine to the original
complex output; and the recombination returns a real-valued Jacobian
exactly when the imaginary slice of the recombined Jacobian is
identically zero, and the complex recombined Jacobian otherwise. -/
theorem C8_jacfwd_split_recombine :
    (∀ {α : Type} (jacEngine : (α → List ℚ × List ℚ) → α → List ℚ × List ℚ)
      (fn : α → List (ℚ × ℚ)) (x : α),
      jacfwd jacEngine fn x =
        combine_real_imag (jacEngine (fun y => split_real_imag (fn y)) x)) ∧
    (∀ t : List (ℚ × ℚ),
      List.zipWith Prod.mk (split_real_imag t).1 (split_real_imag t).2 = t) ∧
    (∀ s : List ℚ × List ℚ,
      ((∀ z ∈ List.zipWith Prod.mk s.1 s.2, z.2 = 0) →
        combine_real_imag s =
          Sum.inl ((List.zipWith Prod.mk s.1 s.2).map Prod.fst)) ∧
      (¬ (∀ z ∈ List.zipWith Prod.mk s.1 s.2, z.2 = 0) →
        combine_real_imag s = Sum.inr (List.zipWith Prod.mk s.1 s.2)) ∧
      ((combine_real_imag s).isLeft ↔
        ∀ z ∈ List.zipWith Prod.mk s.1 s.2, z.2 = 0)) := by
  refine ⟨fun jacEngine fn x => rfl, fun t => zipWith_mk_fst_snd t,
    fun s => ?_⟩
  by_cases h : ∀ z ∈ List.zipWith Prod.mk s.1 s.2, z.2 = 0
  · refine ⟨fun _ => ?_, fun hn => absurd h hn, ?_⟩
    · simp only [combine_real_imag]
      rw [if_pos h]
    · simp only [combine_real_imag]
      rw [if_pos h]
      simpa using h
  · refine ⟨fun h2 => absurd h2 h, fun _ => ?_, ?_⟩
    · simp only [combine_real_imag]
      rw [if_neg h]
    · simp only [combine_real_imag]
      rw [if_neg h]
      simpa using h

/-- Witness for C8 at concrete inputs. -/
theorem C8_witness :
    (∀ z ∈ List.zipWith Prod.mk [(1 : ℚ)] [(0 : ℚ)], z.2 = 0) ∧
    combine_real_imag ([(1 : ℚ)], [(0 : ℚ)]) =
      Sum.inl ((List.zipWith Prod.mk [(1 : ℚ)] [(0 : ℚ)]).map Prod.fst) ∧
    jacfwd (fun g y => g y) (fun _ : ℚ => [((1 : ℚ), (0 : ℚ))]) 0 =
      combine_real_imag ((fun g y => g y)
        (fun y => split_real_imag ((fun _ : ℚ => [((1 : ℚ), (0 : ℚ))]) y))
        0) :=
  ⟨by decide,
    (C8_jacfwd_split_recombine.2.2 ([(1 : ℚ)], [(0 : ℚ)])).1 (by decide),
    C8_jacfwd_split_recombine.1 (fun g y => g y)
      (fun _ : ℚ => [((1 : ℚ), (0 : ℚ))]) 0⟩

/-- Claim C9 (code evaluation): in the multi-pool branch of
`_initialize_fieldmap`, a zero `T2star` (with `T2 = 1` for the last
pool) makes the real part of the field term `df` equal to positive
infinity: the division `1 / T2star` is not sanitized before being
stored in `df`, while the sanitized quantity `T2prime` that the branch
does compute (finite for every input, here `eps`) is never used by
`df`.  The single-pool branch, by contrast, applies the documented
zero-substitution policy and always produces a finite `df`. -/
theorem C9_fieldmap_inf_propagation :
    (fieldmap_df_bm (FVal.fin 0) (FVal.fin 1)).1 = FVal.pinf ∧
    (fieldmap_df_bm (FVal.fin 0) (FVal.fin 1)).2 = FVal.fin eps32 ∧
    (∀ q : ℚ, ∃ r : ℚ, fieldmap_df_single (FVal.fin q) = FVal.fin r) := by
  refine ⟨rfl, ?_, fun q => ?_⟩
  · simp [fieldmap_df_bm, frecip, fsub, fadd, nan_to_num, eps32]
  · by_cases h : q = 0
    · exact ⟨eps32, by
        simp [fieldmap_df_single, frecip, nan_to_num, fadd, h]⟩
    · exact ⟨q⁻¹ + eps32, by
        simp [fieldmap_df_single, frecip, nan_to_num, fadd, h]⟩
